import Mathlib

/-!
A shallow embedding of the connection and capability-registration manager of
sourcegraph/lsp-client (src/index.ts together with src/features/*.ts), with
theorems settling the specification claims about it.

Conventions of the embedding:
* JavaScript `Map<string, T>` objects are modelled as association lists
  (`List (String × Nat)`), with `mapSet` reproducing `Map.prototype.set`
  (update in place preserving insertion order when the key exists, append
  otherwise), `lookupAssoc` reproducing `Map.prototype.get` and `mapDelete`
  reproducing `Map.prototype.delete`.
* Host-side effects (installing a provider, disposing a subscription,
  reporter creation / next / complete, notifications sent) are recorded in
  explicit state fields or event traces instead of being performed.
* Handles such as provider subscriptions, connections and progress reporters
  are numbered by allocation order (`Nat` counters standing for the object
  identities produced at runtime; `uuid.v1()` values are numbered the same
  way).
* The WHATWG `new URL(ref, base).href` resolution used by the source is
  modelled by `urlResolve` for the URL shapes that occur in this repository
  (absolute references, root-relative references, and relative references
  against a hierarchical base; no dot-segment or percent-encoding
  normalisation arises for these inputs).
-/

namespace LspClient

/-- `Map.prototype.get`: first binding of the key, if any. -/
def lookupAssoc (m : List (String × Nat)) (k : String) : Option Nat :=
  match m with
  | [] => none
  | kv :: rest => if kv.1 == k then some kv.2 else lookupAssoc rest k

/-- `Map.prototype.set`: replace the binding in place (keeping insertion
order) when the key is present, append a new binding otherwise. -/
def mapSet (m : List (String × Nat)) (k : String) (v : Nat) : List (String × Nat) :=
  match m with
  | [] => [(k, v)]
  | kv :: rest => if kv.1 == k then (k, v) :: rest else kv :: mapSet rest k v

/-- `Map.prototype.delete`: drop the bindings of the key. -/
def mapDelete (m : List (String × Nat)) (k : String) : List (String × Nat) :=
  m.filter (fun kv => kv.1 != k)

/-- A JavaScript `Map` never holds two bindings for one key; an association
list models a `Map` when its keys are distinct. -/
def NodupKeys (m : List (String × Nat)) : Prop :=
  (m.map Prod.fst).Nodup

/-! URL resolution (the `new URL(ref, base).href` calls of the source). -/

/-- Whether a character list contains the literal substring `://`,
marking an absolute URL reference. -/
def hasSchemeSep : List Char → Bool
  | ':' :: '/' :: '/' :: _ => true
  | _ :: rest => hasSchemeSep rest
  | [] => false

/-- Split a character list around the first `://`, returning the parts
before and after it. -/
def schemeSplit : List Char → Option (List Char × List Char)
  | [] => none
  | ':' :: '/' :: '/' :: rest => some ([], rest)
  | c :: rest => (schemeSplit rest).map (fun pr => (c :: pr.1, pr.2))

/-- The `scheme://authority` part of a hierarchical base URL. -/
def baseOrigin (base : String) : String :=
  match schemeSplit base.data with
  | some (scheme, rest) =>
      String.mk (scheme ++ [':', '/', '/'] ++ rest.takeWhile (fun c => c != '/'))
  | none => base

/-- The base URL up to and including its last `/` (the directory against
which a relative reference is resolved). A base without any `/` is returned
unchanged (no such base occurs in this repository). -/
def keepThroughLastSlash (s : String) : String :=
  match s.data.reverse.dropWhile (fun c => c != '/') with
  | [] => s
  | r => String.mk r.reverse

/-- Model of `new URL(ref, base).href` for the URL shapes occurring in this
repository: an absolute reference is returned as-is, a root-relative
reference is resolved against the base's origin, and any other reference is
appended to the base's directory. -/
def urlResolve (ref base : String) : String :=
  if hasSchemeSep ref.data then ref
  else
    match ref.data with
    | '/' :: _ => baseOrigin base ++ ref
    | _ => keepThroughLastSlash base ++ ref

/-! Document selectors (vscode-languageserver-protocol `DocumentSelector`). -/

/-- A `DocumentFilter`: the fields of the protocol type that this repository
reads or writes. -/
structure DocumentFilter where
  language : Option String := none
  scheme : Option String := none
  pattern : Option String := none
deriving DecidableEq, Repr

/-- One entry of a `DocumentSelector`: either a bare language-id string or a
filter object. -/
inductive SelectorEntry where
  | lang (s : String)
  | filter (f : DocumentFilter)
deriving DecidableEq, Repr

/-- The first `.map` of `scopeDocumentSelectorToRoot`: a bare string `s`
becomes `{ language: s }`, a filter stays itself. -/
def toFilter : SelectorEntry → DocumentFilter
  | SelectorEntry.lang s => { language := some s }
  | SelectorEntry.filter f => f

/-- The JavaScript expression `selector.pattern || '**'`: `undefined` and
the empty string are both falsy and default to `**`. -/
def patternOrDefault : Option String → String
  | none => "**"
  | some s => if s = "" then "**" else s

/-- The default selector `[{ pattern: '**' }]` substituted for a null or
empty input selector. -/
def defaultSelector : List SelectorEntry :=
  [SelectorEntry.filter { pattern := some "**" }]

/-- src/src/index.ts, `scopeDocumentSelectorToRoot`.
A null or empty selector becomes `[{ pattern: '**' }]`; with no root the
(defaulted) selector is returned unchanged; with a root, each entry is
first normalised to a filter and then rebuilt as
`{ ...documentSelector, pattern: new URL(selector.pattern || '**', rootUri).href }`.
Note the spread is of `documentSelector` — the selector ARRAY — not of the
individual filter: spreading an array into an object literal contributes
only index-keyed properties (`"0"`, `"1"`, …), none of which is a
`DocumentFilter` field, so the produced filter carries no `language` or
`scheme` field, only the freshly written `pattern`. -/
def scopeDocumentSelectorToRoot (documentSelector : Option (List SelectorEntry))
    (rootUri : Option String) : List SelectorEntry :=
  let sel : List SelectorEntry :=
    match documentSelector with
    | none => defaultSelector
    | some [] => defaultSelector
    | some s => s
  match rootUri with
  | none => sel
  | some root =>
      (sel.map toFilter).map (fun selector =>
        SelectorEntry.filter
          { language := none, scheme := none,
            pattern := some (urlResolve (patternOrDefault selector.pattern) root) })

/-! Capability registration (src/src/index.ts, `registerCapabilities`). -/

/-- The five request-method strings of the supported features. -/
def hoverMethod : String := "textDocument/hover"

def definitionMethod : String := "textDocument/definition"

def referencesMethod : String := "textDocument/references"

def typeDefinitionMethod : String := "textDocument/typeDefinition"

def implementationMethod : String := "textDocument/implementation"

/-- Whether a method string has a matching arm in the `switch` of
`registerCapabilities` (anything else falls into `default`). -/
def knownMethod (m : String) : Bool :=
  m == hoverMethod || m == definitionMethod || m == referencesMethod ||
    m == typeDefinitionMethod || m == implementationMethod

/-- A protocol `Registration`, carrying the one field of its
`registerOptions` that this repository reads (`documentSelector`; the
protocol's `null` and an absent field are both `none`). -/
structure Registration where
  id : String
  method : String
  documentSelector : Option (List SelectorEntry) := none
deriving DecidableEq, Repr

/-- The document selector `registerCapabilities` hands to the host's
provider-registration sink for one registration: the `hover` arm passes
`scopeDocumentSelectorToRoot(options.documentSelector, scopeRootUri)`, while
the `definition`, `references`, `typeDefinition` and `implementation` arms
pass `options.documentSelector || []` — the raw selector, unscoped. -/
def selectorPassedToHost (scopeRootUri : Option String) (reg : Registration) :
    List SelectorEntry :=
  if reg.method == hoverMethod then
    scopeDocumentSelectorToRoot reg.documentSelector scopeRootUri
  else
    reg.documentSelector.getD []

/-- The observable state touched by `registerCapabilities`:
`registrationSubscriptions` is the `Map<string, Unsubscribable>` of the
source keyed by registration id; `installed` records every host-side
provider installation as (handle, method, selector handed to the sink), in
order; `disposedHandles` records every handle whose `unsubscribe` was
called; `nextHandle` numbers the handles by allocation order. -/
structure CapState where
  nextHandle : Nat := 0
  registrationSubscriptions : List (String × Nat) := []
  installed : List (Nat × String × List SelectorEntry) := []
  disposedHandles : List Nat := []
deriving DecidableEq, Repr

/-- The empty registration state (a fresh client). -/
def capInit : CapState := {}

/-- src/src/index.ts, `registerCapabilities`: iterate over the registration
list; a known method installs a provider (recording the handle and the
selector passed to the sink) and then stores the handle under the
registration id with `Map.set` — overwriting any prior binding without
disposing it. The `default` arm of the `switch` is `return`, so the first
registration with an unknown method ends the whole call, leaving the
remaining entries unprocessed. -/
def registerCapabilities (scopeRootUri : Option String) :
    CapState → List Registration → CapState
  | st, [] => st
  | st, reg :: rest =>
    if knownMethod reg.method then
      registerCapabilities scopeRootUri
        { nextHandle := st.nextHandle + 1,
          registrationSubscriptions :=
            mapSet st.registrationSubscriptions reg.id st.nextHandle,
          installed :=
            st.installed ++ [(st.nextHandle, reg.method, selectorPassedToHost scopeRootUri reg)],
          disposedHandles := st.disposedHandles }
        rest
    else
      st

/-- src/src/features/definition.ts, `definitionFeature.register`: the
selector the feature module hands to `registerDefinitionProvider` is the
root-scoped one (`scopeDocumentSelectorToRoot(registerOptions.documentSelector, scopeRootUri)`);
`hoverFeature.register` and `referencesFeature.register` scope identically. -/
def definitionFeatureSelector (registerOptionsSelector : Option (List SelectorEntry))
    (scopeRootUri : Option String) : List SelectorEntry :=
  scopeDocumentSelectorToRoot registerOptionsSelector scopeRootUri

/-! Static registrations (src/src/index.ts, `staticRegistrationsFromCapabilities`). -/

/-- The value of a `typeDefinitionProvider` / `implementationProvider`
capability: absent (falsy), `true`, or an options object optionally carrying
a static registration `id` and a `documentSelector`. -/
inductive CapFlag where
  | absent
  | simple
  | withOptions (id : Option String) (documentSelector : Option (List SelectorEntry))
deriving DecidableEq, Repr

/-- The capability flags of the initialize result that
`staticRegistrationsFromCapabilities` reads. `hoverProvider`,
`definitionProvider` and `referencesProvider` are only tested for
truthiness by the source, so they are carried as `Bool`. -/
structure ServerCapabilities where
  hoverProvider : Bool := false
  definitionProvider : Bool := false
  typeDefinitionProvider : CapFlag := CapFlag.absent
  implementationProvider : CapFlag := CapFlag.absent
  referencesProvider : Bool := false
deriving DecidableEq, Repr

/-- `uuid.v1()` values, numbered by call order. -/
def uuidV1 (n : Nat) : String := "uuid-" ++ toString n

/-- src/src/index.ts, `getStaticRegistrationId`:
`(typeof staticOptions !== 'boolean' && staticOptions.id) || uuid.v1()` —
the declared id when it is a non-empty string, a fresh uuid otherwise.
Returns the id and the advanced uuid counter. -/
def getStaticRegistrationId (flag : CapFlag) (fresh : Nat) : String × Nat :=
  match flag with
  | CapFlag.withOptions (some i) _ =>
      if i = "" then (uuidV1 fresh, fresh + 1) else (i, fresh)
  | _ => (uuidV1 fresh, fresh + 1)

/-- The `registerOptions` of a static typeDefinition/implementation
registration: `(typeof cap === 'object' && cap) || { documentSelector: null }`. -/
def capFlagRegisterOptions (flag : CapFlag) : Option (List SelectorEntry) :=
  match flag with
  | CapFlag.withOptions _ sel => sel
  | _ => none

/-- src/src/index.ts, `staticRegistrationsFromCapabilities`: one synthesized
`Registration` per set capability flag, in source order (hover, definition,
typeDefinition, implementation, references), threading the uuid counter.
Note the `typeDefinitionProvider` branch pushes
`ImplementationRequest.type.method` — `textDocument/implementation` — as its
method, exactly as the source does. -/
def staticRegistrationsFromCapabilities (capabilities : ServerCapabilities)
    (fresh : Nat) : List Registration × Nat :=
  let acc : List Registration × Nat := ([], fresh)
  let acc :=
    if capabilities.hoverProvider then
      (acc.1 ++ [{ id := uuidV1 acc.2, method := hoverMethod, documentSelector := none }],
        acc.2 + 1)
    else acc
  let acc :=
    if capabilities.definitionProvider then
      (acc.1 ++ [{ id := uuidV1 acc.2, method := definitionMethod, documentSelector := none }],
        acc.2 + 1)
    else acc
  let acc :=
    match capabilities.typeDefinitionProvider with
    | CapFlag.absent => acc
    | flag =>
        let idFresh := getStaticRegistrationId flag acc.2
        (acc.1 ++
            [{ id := idFresh.1, method := implementationMethod,
               documentSelector := capFlagRegisterOptions flag }],
          idFresh.2)
  let acc :=
    match capabilities.implementationProvider with
    | CapFlag.absent => acc
    | flag =>
        let idFresh := getStaticRegistrationId flag acc.2
        (acc.1 ++
            [{ id := idFresh.1, method := implementationMethod,
               documentSelector := capFlagRegisterOptions flag }],
          idFresh.2)
  if capabilities.referencesProvider then
    (acc.1 ++ [{ id := uuidV1 acc.2, method := referencesMethod, documentSelector := none }],
      acc.2 + 1)
  else acc

/-! Workspace roots and root-change reconciliation (src/src/index.ts,
`register`). -/

/-- A host workspace root: the core only reads its `uri`. In the host's
runtime it is a plain object, so JavaScript's default
`Object.prototype.toString` renders it as the literal `"[object Object]"`. -/
structure WorkspaceRoot where
  uri : String
deriving DecidableEq, Repr

/-- JavaScript string conversion of a `WorkspaceRoot` (`root.toString()`):
a plain object without a custom `toString` always yields
`"[object Object]"`. -/
def jsObjectToString (_ : WorkspaceRoot) : String := "[object Object]"

/-- lodash `differenceBy(a, b, root => root.uri.toString())`: the elements
of `a` whose uri occurs in no element of `b`, in the order of `a`. -/
def differenceBy (a b : List WorkspaceRoot) : List WorkspaceRoot :=
  a.filter (fun x => !(b.any (fun y => y.uri == x.uri)))

/-- A `workspace/didChangeWorkspaceFolders` payload. The folder entries are
identified by their root uri (the `name` field derived by the uri-preserving
`toLSPWorkspaceFolder` conversion is irrelevant to every claim and omitted). -/
structure WorkspaceFoldersChangeEvent where
  added : List WorkspaceRoot
  removed : List WorkspaceRoot
deriving DecidableEq, Repr

/-- src/src/index.ts, multi-root mode root-change forwarding: each
root-change event pairs the previous and current root lists, and exactly one
notification is sent per event, carrying the uri-keyed diffs. -/
def multiRootRootChangeNotifications (before after : List WorkspaceRoot) :
    List WorkspaceFoldersChangeEvent :=
  [{ added := differenceBy after before, removed := differenceBy before after }]

/-- The single-root (non-multi-root) reconciliation state:
`connectionsByRootUri` is the source's `Map<string, Promise<MessageConnection>>`,
`nextConnection` numbers connections by creation order, `disposed` records
every `connection.dispose()` issued by the removal path, and `createdFor`
is bookkeeping (not program state) pairing each root uri with the
connection created for it. -/
structure SingleRootState where
  connectionsByRootUri : List (String × Nat) := []
  nextConnection : Nat := 0
  disposed : List Nat := []
  createdFor : List (String × Nat) := []
deriving DecidableEq, Repr

/-- The reconciliation state before the first root-change event. -/
def srInit : SingleRootState := {}

/-- src/src/index.ts, single-root mode root-change reconciliation (the
`concatMap` body): for each added root a connection is created and stored —
under the key `root.toString()`, the literal the source uses — and for each
removed root the map is consulted under `root.uri.toString()` and the found
connection, if any, is disposed. Connection setup is modelled as succeeding
(the error path only logs and deletes the map entry). -/
def handleRootsDiff (st : SingleRootState) (before after : List WorkspaceRoot) :
    SingleRootState :=
  let added := differenceBy after before
  let st := added.foldl
    (fun st root =>
      { st with
        connectionsByRootUri :=
          mapSet st.connectionsByRootUri (jsObjectToString root) st.nextConnection,
        createdFor := st.createdFor ++ [(root.uri, st.nextConnection)],
        nextConnection := st.nextConnection + 1 })
    st
  let removed := differenceBy before after
  removed.foldl
    (fun st root =>
      match lookupAssoc st.connectionsByRootUri root.uri with
      | some c => { st with disposed := st.disposed ++ [c] }
      | none => st)
    st

/-! The single-root `withConnection` (src/src/index.ts, lines 498-509),
modelled as an event trace. -/

/-- The externally visible events of a single-root `withConnection` call and
of connection setup: opening a transport connection, the `initialize`
request, a `textDocument/didOpen` notification, the installation of
provider registrations, the invocation of the caller's callback, and a
`connection.dispose()`. Each event names the connection it happens on. -/
inductive WCEvent where
  | connect (c : Nat)
  | initReq (c : Nat)
  | didOpen (c : Nat)
  | registerProviders (c : Nat)
  | callFn (c : Nat)
  | dispose (c : Nat)
deriving DecidableEq, Repr

/-- A `try { body } finally { cleanup }`: the cleanup events run after the
body whether its result is a resolution or a rejection, and the body's
outcome is passed through. -/
def tryFinallyTrace (body : List WCEvent × Except String Nat)
    (cleanup : List WCEvent) : List WCEvent × Except String Nat :=
  (body.1 ++ cleanup, body.2)

/-- `connect()` of src/src/index.ts opens the transport and wires up
notification handlers; it sends no request of its own. -/
def connectEvents (c : Nat) : List WCEvent := [WCEvent.connect c]

/-- src/src/index.ts, `initializeConnection` (lines 424-442): the
`initialize` request, then one `didOpen` per open document under the root,
then the installation of the static provider registrations (the
dynamic-registration request handler is installed alongside and emits no
event of its own). -/
def initConnEvents (c : Nat) (openDocsUnderRoot : Nat) : List WCEvent :=
  [WCEvent.initReq c] ++ List.replicate openDocsUnderRoot (WCEvent.didOpen c) ++
    [WCEvent.registerProviders c]

/-- The connection a single-root `withConnection` call hands to its
callback: the tracked one when `connectionsByRootUri` has the root's href,
a freshly connected one otherwise. -/
def connUsed (m : List (String × Nat)) (fresh : Nat) (href : String) : Nat :=
  (lookupAssoc m href).getD fresh

/-- src/src/index.ts, single-root `withConnection`: look up
`connectionsByRootUri.get(workspaceFolder.href)`; on a miss call `connect()`
(and nothing else — no initialize, no document sync, no registrations);
then run the callback under `try`/`finally` with `connection.dispose()` as
the cleanup. `fnOutcome` is the settlement of the callback's promise. -/
def withConnectionSingleRoot (m : List (String × Nat)) (fresh : Nat)
    (href : String) (fnOutcome : Except String Nat) :
    List WCEvent × Except String Nat :=
  let acquired : List WCEvent × Nat :=
    match lookupAssoc m href with
    | some c => ([], c)
    | none => (connectEvents fresh, fresh)
  tryFinallyTrace (acquired.1 ++ [WCEvent.callFn acquired.2], fnOutcome)
    [WCEvent.dispose acquired.2]

/-- Whether an event is the disposal of connection `c`. -/
def isDisposeOf (c : Nat) : WCEvent → Bool
  | WCEvent.dispose cd => cd == c
  | _ => false

/-! The window-progress handler (src/src/index.ts, lines 378-411). -/

/-- A `window/progress` notification payload. -/
structure ProgressNotif where
  id : String
  title : Option String := none
  message : Option String := none
  percentage : Option Nat := none
  done : Bool := false
deriving DecidableEq, Repr

/-- The state of one connection's progress relay: `showProgressAvailable`
models `sourcegraph.app.activeWindow && activeWindow.showProgress`;
`reporters` is the `progressReporters` map from token to the
reporter(-creation promise), reporters being numbered by creation order;
`created` counts `showProgress` invocations; `createdTitles` records the
title passed to each creation (with the suffix applied when the title is
truthy); `nextCalls` records every `reporter.next({percentage, message})`;
`completed` records every `reporter.complete()`. -/
structure ProgressState where
  showProgressAvailable : Bool := true
  progressSuffix : String := ""
  reporters : List (String × Nat) := []
  created : Nat := 0
  createdTitles : List (Option String) := []
  nextCalls : List (Nat × Option Nat × Option String) := []
  completed : List Nat := []
deriving DecidableEq, Repr

/-- The fresh progress-relay state of a new connection. -/
def progressInit : ProgressState := {}

/-- The title argument handed to `showProgress`:
`if (title) { title = title + progressSuffix }` — a truthy (non-empty)
title gets the suffix, an empty or absent one is passed through. -/
def titleWithSuffix (suffix : String) : Option String → Option String
  | none => none
  | some t => if t = "" then some t else some (t ++ suffix)

/-- The synchronous prefix of the progress-notification handler, up to its
first suspension point: bail out when no progress surface is available;
otherwise fetch the reporter promise for the token, creating it and storing
it in the map BEFORE any await when it is absent. Returns the reporter the
handler will use (none when it bailed out) with the updated state. -/
def progressPhase1 (st : ProgressState) (n : ProgressNotif) :
    Option Nat × ProgressState :=
  if st.showProgressAvailable then
    match lookupAssoc st.reporters n.id with
    | some p => (some p, st)
    | none =>
        (some st.created,
          { st with
            reporters := mapSet st.reporters n.id st.created,
            created := st.created + 1,
            createdTitles := st.createdTitles ++ [titleWithSuffix st.progressSuffix n.title] })
  else
    (none, st)

/-- The rest of the handler, after the reporter promise resolved: forward
`reporter.next({percentage, message})` for EVERY notification (the `done`
one included), then on `done` complete the reporter and evict the token. -/
def progressPhase2 (st : ProgressState) (n : ProgressNotif) (p : Option Nat) :
    ProgressState :=
  match p with
  | none => st
  | some reporter =>
      let st := { st with nextCalls := st.nextCalls ++ [(reporter, n.percentage, n.message)] }
      if n.done then
        { st with
          completed := st.completed ++ [reporter],
          reporters := mapDelete st.reporters n.id }
      else st

/-- One progress notification handled to completion (no other handler
interleaved between its two phases). -/
def handleProgress (st : ProgressState) (n : ProgressNotif) : ProgressState :=
  let r := progressPhase1 st n
  progressPhase2 r.2 n r.1

/-- A sequential stream of progress notifications on one connection. -/
def runProgress (st : ProgressState) (ns : List ProgressNotif) : ProgressState :=
  ns.foldl handleProgress st

/-! Concrete fixtures (the scenarios named by the specification and the
repository's tests). -/

/-- A hover registration with id `r1`. -/
def regR1Hover : Registration := { id := "r1", method := hoverMethod }

/-- A definition registration reusing id `r1`. -/
def regR1Def : Registration := { id := "r1", method := definitionMethod }

/-- A registration whose method matches no feature. -/
def regUnknown : Registration := { id := "u1", method := "workspace/executeCommand" }

/-- A hover registration with id `h1`. -/
def regH1Hover : Registration := { id := "h1", method := hoverMethod }

/-- A definition registration with an explicit pattern selector. -/
def regDefD1 : Registration :=
  { id := "d1", method := definitionMethod,
    documentSelector := some [SelectorEntry.filter { pattern := some "p" }] }

/-- A root URI for scoping examples. -/
def exampleRoot : String := "https://example.com/dir/"

/-- The selector of the repository's hover test. -/
def tsSelector : List SelectorEntry :=
  [SelectorEntry.filter { language := some "typescript" }]

/-- The root URI of the repository's hover test. -/
def testRootUri : String := "https://sourcegraph.test/repo@rev/-/raw/"

/-- The state after installing the two same-id registrations in turn. -/
def capAfterR1Hover : CapState := registerCapabilities none capInit [regR1Hover]

/-- The state after the second `r1` registration replaced the first in the
map. -/
def capAfterR1Both : CapState := registerCapabilities none capAfterR1Hover [regR1Def]

/-- The two roots of the repository's close-connection test. -/
def gitRepo1 : WorkspaceRoot := { uri := "git://repo1?rev" }

/-- The second root of the repository's close-connection test. -/
def gitRepo2 : WorkspaceRoot := { uri := "git://repo2?rev" }

/-- Single-root state after the initial synthetic diff opened both roots. -/
def srAfterStartup : SingleRootState := handleRootsDiff srInit [] [gitRepo1, gitRepo2]

/-- Single-root state after the first root was removed. -/
def srAfterRemoval : SingleRootState :=
  handleRootsDiff srAfterStartup [gitRepo1, gitRepo2] [gitRepo2]

/-- Roots for the multi-root diff scenario. -/
def rootA : WorkspaceRoot := { uri := "file:///a/" }

/-- Second root for the multi-root diff scenario. -/
def rootB : WorkspaceRoot := { uri := "file:///b/" }

/-- The `p1` progress stream of the specification's scenario. -/
def p1Step0 : ProgressNotif := { id := "p1", percentage := some 0 }

/-- Second notification of the `p1` stream. -/
def p1Step50 : ProgressNotif := { id := "p1", percentage := some 50 }

/-- The terminating notification of the `p1` stream. -/
def p1Done : ProgressNotif := { id := "p1", done := true }

/-- A later `p1` notification arriving after the stream completed. -/
def p1Again : ProgressNotif := { id := "p1", percentage := some 10 }

/-- The progress state after the three-notification `p1` scenario. -/
def progressScenario : ProgressState :=
  runProgress progressInit [p1Step0, p1Step50, p1Done]

/-- Capabilities declaring only `typeDefinitionProvider`. -/
def capsTypeDefOnly : ServerCapabilities := { typeDefinitionProvider := CapFlag.simple }

/-- Capabilities declaring all five feature flags. -/
def capsAllFive : ServerCapabilities :=
  { hoverProvider := true, definitionProvider := true,
    typeDefinitionProvider := CapFlag.simple,
    implementationProvider := CapFlag.simple, referencesProvider := true }

/-! Helper lemmas about the map model and `registerCapabilities`. -/

theorem lookupAssoc_mapSet_self (m : List (String × Nat)) (k : String) (v : Nat) :
    lookupAssoc (mapSet m k v) k = some v := by
  induction m with
  | nil => simp [mapSet, lookupAssoc]
  | cons kv rest ih =>
      by_cases h : kv.1 == k
      · simp [mapSet, lookupAssoc, h]
      · simp only [mapSet, lookupAssoc, h, if_neg, Bool.false_eq_true, not_false_iff,
          ite_false]
        exact ih

theorem mem_keys_mapSet (m : List (String × Nat)) (k a : String) (v : Nat) :
    a ∈ (mapSet m k v).map Prod.fst ↔ a ∈ m.map Prod.fst ∨ a = k := by
  induction m with
  | nil => simp [mapSet]
  | cons kv rest ih =>
      by_cases h : kv.1 == k
      · have hk : kv.1 = k := by simpa using h
        simp [mapSet, h, hk]
        tauto
      · simp [mapSet, h, ih]
        tauto

theorem nodupKeys_mapSet (m : List (String × Nat)) (k : String) (v : Nat)
    (h : NodupKeys m) : NodupKeys (mapSet m k v) := by
  induction m with
  | nil => simp [NodupKeys, mapSet]
  | cons kv rest ih =>
      unfold NodupKeys at h
      simp only [List.map_cons, List.nodup_cons] at h
      by_cases hk : kv.1 == k
      · have hkeq : kv.1 = k := by simpa using hk
        have hms : mapSet (kv :: rest) k v = (k, v) :: rest := by
          simp [mapSet, hk]
        unfold NodupKeys
        rw [hms]
        simp only [List.map_cons, List.nodup_cons]
        subst hkeq
        exact h
      · have hne : kv.1 ≠ k := by simpa using hk
        have hms : mapSet (kv :: rest) k v = kv :: mapSet rest k v := by
          simp [mapSet, hk]
        have ihr := ih h.2
        unfold NodupKeys at ihr ⊢
        rw [hms]
        simp only [List.map_cons, List.nodup_cons]
        refine ⟨?_, ihr⟩
        intro hmem
        rcases (mem_keys_mapSet rest k kv.1 v).mp hmem with hin | heq
        · exact h.1 hin
        · exact hne heq

theorem registerCapabilities_disposedHandles (root : Option String) :
    ∀ (regs : List Registration) (st : CapState),
      (registerCapabilities root st regs).disposedHandles = st.disposedHandles := by
  intro regs
  induction regs with
  | nil => intro st; rfl
  | cons reg rest ih =>
      intro st
      by_cases h : knownMethod reg.method
      · simp [registerCapabilities, h, ih]
      · simp [registerCapabilities, h]

theorem registerCapabilities_nodupKeys (root : Option String) :
    ∀ (regs : List Registration) (st : CapState),
      NodupKeys st.registrationSubscriptions →
      NodupKeys (registerCapabilities root st regs).registrationSubscriptions := by
  intro regs
  induction regs with
  | nil => intro st h; exact h
  | cons reg rest ih =>
      intro st h
      by_cases hk : knownMethod reg.method
      · simp only [registerCapabilities, hk, if_pos]
        exact ih _ (nodupKeys_mapSet _ _ _ h)
      · simp only [registerCapabilities, hk, Bool.false_eq_true, if_neg,
          not_false_iff, ite_false]
        exact h

theorem registerCapabilities_takeWhile_known (root : Option String) :
    ∀ (regs : List Registration) (st : CapState),
      registerCapabilities root st regs =
        registerCapabilities root st (regs.takeWhile (fun r => knownMethod r.method)) := by
  intro regs
  induction regs with
  | nil => intro st; rfl
  | cons reg rest ih =>
      intro st
      by_cases h : knownMethod reg.method
      · simp only [List.takeWhile_cons, h, ite_true, registerCapabilities, if_pos]
        exact ih _
      · simp only [List.takeWhile_cons, h, Bool.false_eq_true, ite_false,
          registerCapabilities, if_neg, not_false_iff]

/-! Claim theorems. -/

/-- C1 counterexample: installing a hover registration with id `r1` and
then a definition registration with the same id leaves the map with the
second handle only, but the first handle is never disposed — both provider
handles remain active, refuting the claim that the first has been
unsubscribed by the time the second is stored. -/
theorem duplicate_id_first_handle_not_disposed :
    capAfterR1Both.registrationSubscriptions = [("r1", 1)] ∧
    capAfterR1Both.installed.map Prod.fst = [0, 1] ∧
    capAfterR1Both.disposedHandles = [] ∧
    ¬(0 ∈ capAfterR1Both.disposedHandles) := by decide

/-- C1 (amended): `registerCapabilities` never disposes any handle, and the
`Map.set` overwrite keeps at most one stored handle per registration id —
the second registration replaces the first in the map, but the first
provider handle stays active (is never unsubscribed). -/
theorem registration_overwrite_single_entry_no_dispose
    (root : Option String) (st : CapState) (regs : List Registration)
    (h : NodupKeys st.registrationSubscriptions) :
    (registerCapabilities root st regs).disposedHandles = st.disposedHandles ∧
    NodupKeys (registerCapabilities root st regs).registrationSubscriptions :=
  ⟨registerCapabilities_disposedHandles root regs st,
    registerCapabilities_nodupKeys root regs st h⟩

/-- C1 witness: the amended statement at the concrete same-id scenario. -/
theorem registration_overwrite_single_entry_no_dispose_concrete :
    (registerCapabilities none capAfterR1Hover [regR1Def]).disposedHandles =
      capAfterR1Hover.disposedHandles ∧
    NodupKeys (registerCapabilities none capAfterR1Hover [regR1Def]).registrationSubscriptions :=
  registration_overwrite_single_entry_no_dispose none capAfterR1Hover [regR1Def]
    (by unfold NodupKeys; decide)

/-- C2: a definition registration with selector `[{pattern: 'p'}]` installed
under root `https://example.com/dir/` is handed to the host's sink with the
RAW selector, while the root-scoped selector (the one
`definitionFeature.register` of src/src/features/definition.ts computes)
differs — `registerCapabilities` scopes only the hover arm. -/
theorem definition_registration_selector_unscoped :
    (registerCapabilities (some exampleRoot) capInit [regDefD1]).installed =
      [(0, definitionMethod, [SelectorEntry.filter { pattern := some "p" }])] ∧
    definitionFeatureSelector regDefD1.documentSelector (some exampleRoot) =
      [SelectorEntry.filter { pattern := some "https://example.com/dir/p" }] ∧
    [SelectorEntry.filter { pattern := some "p" }] ≠
      definitionFeatureSelector regDefD1.documentSelector (some exampleRoot) := by
  decide

/-- C3: `scopeDocumentSelectorToRoot` resolves the pattern against the root
but DROPS the input filter's other fields (the source spreads the selector
array, not the filter), so `{language: 'typescript'}` scoped to the test
root does not keep its language — contradicting the repository's own hover
test. The null-selector default, the null-root identity and the default
pattern resolution behave as claimed. -/
theorem scope_selector_drops_language_field :
    scopeDocumentSelectorToRoot (some tsSelector) (some testRootUri) =
      [SelectorEntry.filter { pattern := some "https://sourcegraph.test/repo@rev/-/raw/**" }] ∧
    scopeDocumentSelectorToRoot (some tsSelector) (some testRootUri) ≠
      [SelectorEntry.filter
        { language := some "typescript",
          pattern := some "https://sourcegraph.test/repo@rev/-/raw/**" }] ∧
    scopeDocumentSelectorToRoot none (some testRootUri) =
      [SelectorEntry.filter { pattern := some "https://sourcegraph.test/repo@rev/-/raw/**" }] ∧
    scopeDocumentSelectorToRoot (some []) none = defaultSelector ∧
    (∀ e s, scopeDocumentSelectorToRoot (some (e :: s)) none = e :: s) :=
  ⟨by decide, by decide, by decide, by decide, fun e s => rfl⟩

/-- C4: in single-root mode the added-root path stores each connection
under `root.toString()` — the literal `"[object Object]"` for a plain
object, the second store overwriting the first — while the removal path
looks the root up under `root.uri.toString()`; the lookup misses, so
removing `git://repo1?rev` (the repository's close-connection test)
disposes nothing. -/
theorem removed_root_connection_not_disposed :
    srAfterStartup.createdFor = [("git://repo1?rev", 0), ("git://repo2?rev", 1)] ∧
    srAfterStartup.connectionsByRootUri = [("[object Object]", 1)] ∧
    lookupAssoc srAfterStartup.connectionsByRootUri "git://repo1?rev" = none ∧
    srAfterRemoval.disposed = [] := by decide

/-- C5: a `typeDefinitionProvider` capability synthesizes a static
registration whose method is `textDocument/implementation`, not
`textDocument/typeDefinition` (the branch pushes
`ImplementationRequest.type.method`); the other four flags map to their own
methods and absent flags synthesize nothing. -/
theorem typeDefinition_capability_registers_implementation_method :
    (staticRegistrationsFromCapabilities capsTypeDefOnly 0).1 =
      [{ id := uuidV1 0, method := implementationMethod }] ∧
    implementationMethod ≠ typeDefinitionMethod ∧
    (staticRegistrationsFromCapabilities capsAllFive 0).1.map (fun r => r.method) =
      [hoverMethod, definitionMethod, implementationMethod, implementationMethod,
        referencesMethod] ∧
    (staticRegistrationsFromCapabilities {} 0).1 = [] := by decide

/-- C6 counterexample: a registration list whose first entry has an unknown
method leaves the state untouched — the hover registration after it is NOT
installed, because the `default` arm of the `switch` is `return`, ending the
whole call. -/
theorem unknown_method_aborts_remaining_registrations :
    registerCapabilities none capInit [regUnknown, regH1Hover] = capInit ∧
    (registerCapabilities none capInit [regUnknown, regH1Hover]).installed = [] := by
  decide

/-- C6 (amended): an unknown-method entry installs nothing and raises no
error, but it stops processing — `registerCapabilities` behaves exactly as
if the registration list were truncated at the first unknown method, and a
list headed by an unknown method leaves the state unchanged. -/
theorem registerCapabilities_stops_at_first_unknown
    (root : Option String) (st : CapState) (regs : List Registration) :
    registerCapabilities root st regs =
      registerCapabilities root st (regs.takeWhile (fun r => knownMethod r.method)) ∧
    (∀ r : Registration, knownMethod r.method = false →
      registerCapabilities root st (r :: regs) = st) := by
  refine ⟨registerCapabilities_takeWhile_known root regs st, ?_⟩
  intro r h
  simp [registerCapabilities, h]

/-- C6 witness: the amended statement at the concrete unknown-then-hover
list. -/
theorem registerCapabilities_stops_at_first_unknown_concrete :
    registerCapabilities none capInit (regUnknown :: [regH1Hover]) = capInit :=
  (registerCapabilities_stops_at_first_unknown none capInit [regH1Hover]).2
    regUnknown (by decide)

/-- C7: every root-change event in multi-root mode sends exactly one
`didChangeWorkspaceFolders` notification whose added set is the roots now
present that were absent before and whose removed set is the roots that
disappeared, both keyed by URI string and order-independent (membership is
characterised set-wise); in particular removing `A` from `{A, B}` sends one
notification with `removed = [A]`, `added = []`. -/
theorem multi_root_single_diff_notification :
    (∀ before after : List WorkspaceRoot,
      (multiRootRootChangeNotifications before after).length = 1) ∧
    (∀ before after : List WorkspaceRoot,
      ∀ ev ∈ multiRootRootChangeNotifications before after,
      (∀ r, r ∈ ev.added ↔ r ∈ after ∧ ∀ b ∈ before, b.uri ≠ r.uri) ∧
      (∀ r, r ∈ ev.removed ↔ r ∈ before ∧ ∀ a ∈ after, a.uri ≠ r.uri)) ∧
    multiRootRootChangeNotifications [rootA, rootB] [rootB] =
      [{ added := [], removed := [rootA] }] := by
  refine ⟨fun _ _ => rfl, ?_, by decide⟩
  intro before after ev hev
  simp only [multiRootRootChangeNotifications, List.mem_singleton] at hev
  subst hev
  constructor
  · intro r
    simp [differenceBy, List.mem_filter]
  · intro r
    simp [differenceBy, List.mem_filter]

/-- C8: single-root `withConnection` hands the callback a connection (the
tracked one on a map hit, a fresh one otherwise), passes the callback's
settlement through unchanged — resolution or rejection — and disposes that
same connection exactly once, after the callback, in every case. -/
theorem withConnection_disposes_after_callback
    (m : List (String × Nat)) (fresh : Nat) (href : String)
    (fnOutcome : Except String Nat) :
    (withConnectionSingleRoot m fresh href fnOutcome).2 = fnOutcome ∧
    (∃ pre, (withConnectionSingleRoot m fresh href fnOutcome).1 =
        pre ++ [WCEvent.dispose (connUsed m fresh href)] ∧
      WCEvent.callFn (connUsed m fresh href) ∈ pre) ∧
    ((withConnectionSingleRoot m fresh href fnOutcome).1.filter
        (isDisposeOf (connUsed m fresh href))).length = 1 := by
  cases h : lookupAssoc m href with
  | none =>
      refine ⟨rfl, ⟨[WCEvent.connect fresh, WCEvent.callFn fresh], ?_, ?_⟩, ?_⟩
      · simp [withConnectionSingleRoot, tryFinallyTrace, connectEvents, connUsed, h]
      · simp [connUsed, h]
      · simp [withConnectionSingleRoot, tryFinallyTrace, connectEvents, connUsed,
          isDisposeOf, h]
  | some c =>
      refine ⟨rfl, ⟨[WCEvent.callFn c], ?_, ?_⟩, ?_⟩
      · simp [withConnectionSingleRoot, tryFinallyTrace, connUsed, h]
      · simp [connUsed, h]
      · simp [withConnectionSingleRoot, tryFinallyTrace, connUsed, isDisposeOf, h]

/-- C9 counterexample: the `{percentage:0}`, `{percentage:50}`,
`{done:true}` stream for token `p1` produces THREE `reporter.next` calls,
not two — the handler forwards `{percentage, message}` for every
notification, the `done` one included, before completing. -/
theorem progress_done_notification_also_forwards_update :
    progressScenario.nextCalls.length = 3 ∧
    progressScenario.nextCalls.length ≠ 2 := by decide

/-- C9 (amended): reporter creation is deduplicated by storing the
in-flight promise before any suspension — a second notification for the
same token, even one interleaved directly after the first's synchronous
prefix, reuses the same reporter and at most one creation happens; the
`p1` scenario creates exactly one reporter, forwards three `next` calls
(the `done` notification forwards a contentless update before completing),
completes and evicts it, and a later `p1` notification creates a fresh
reporter. -/
theorem progress_reporter_dedup_and_lifecycle
    (st : ProgressState) (n nn : ProgressNotif)
    (hw : st.showProgressAvailable = true) (hid : nn.id = n.id) :
    ((progressPhase1 (progressPhase1 st n).2 nn).1 = (progressPhase1 st n).1 ∧
      (progressPhase1 (progressPhase1 st n).2 nn).2.created ≤ st.created + 1) ∧
    (progressScenario.created = 1 ∧
      progressScenario.nextCalls =
        [(0, some 0, none), (0, some 50, none), (0, none, none)] ∧
      progressScenario.completed = [0] ∧
      progressScenario.reporters = [] ∧
      (runProgress progressInit [p1Step0, p1Step50, p1Done, p1Again]).created = 2 ∧
      lookupAssoc (runProgress progressInit [p1Step0, p1Step50, p1Done, p1Again]).reporters
        "p1" = some 1) := by
  refine ⟨?_, by decide⟩
  cases h : lookupAssoc st.reporters n.id with
  | some p =>
      simp [progressPhase1, hw, hid, h]
  | none =>
      simp [progressPhase1, hw, hid, h, lookupAssoc_mapSet_self]

/-- C9 witness: the dedup statement at the concrete `p1` notifications. -/
theorem progress_reporter_dedup_and_lifecycle_concrete :
    (progressPhase1 (progressPhase1 progressInit p1Step0).2 p1Step50).1 =
      (progressPhase1 progressInit p1Step0).1 :=
  ((progress_reporter_dedup_and_lifecycle progressInit p1Step0 p1Step50 rfl rfl).1).1

/-- C10: a single-root `withConnection` call whose root is not in the
tracking map opens a fresh transport connection, calls the callback on it
and disposes it — its trace contains no `initialize` request, no
`didOpen` notification and no provider registration (none of the events
`initializeConnection` would emit). -/
theorem fresh_withConnection_sends_no_init_traffic
    (m : List (String × Nat)) (fresh : Nat) (href : String)
    (fnOutcome : Except String Nat) (h : lookupAssoc m href = none) :
    (withConnectionSingleRoot m fresh href fnOutcome).1 =
      [WCEvent.connect fresh, WCEvent.callFn fresh, WCEvent.dispose fresh] ∧
    (∀ c docs, ∀ e ∈ initConnEvents c docs,
      e ∉ (withConnectionSingleRoot m fresh href fnOutcome).1) := by
  have ht : (withConnectionSingleRoot m fresh href fnOutcome).1 =
      [WCEvent.connect fresh, WCEvent.callFn fresh, WCEvent.dispose fresh] := by
    simp [withConnectionSingleRoot, tryFinallyTrace, connectEvents, h]
  refine ⟨ht, ?_⟩
  intro c docs e he hmem
  rw [ht] at hmem
  simp only [initConnEvents, List.mem_append, List.mem_singleton] at he
  rcases he with (he | he) | he
  · subst he; simp at hmem
  · have := List.eq_of_mem_replicate he
    subst this; simp at hmem
  · subst he; simp at hmem

/-- C10 witness: the statement at a concrete untracked root. -/
theorem fresh_withConnection_sends_no_init_traffic_concrete :
    (withConnectionSingleRoot [] 0 "file:///root1/" (Except.ok 0)).1 =
      [WCEvent.connect 0, WCEvent.callFn 0, WCEvent.dispose 0] :=
  (fresh_withConnection_sends_no_init_traffic [] 0 "file:///root1/" (Except.ok 0) rfl).1

end LspClient
